import Mathlib

/-!
Shallow embedding of the obmd out-of-band management daemon.

Bytes and characters are modelled as `Nat` values (Go `byte` values),
byte strings as `List Nat`, and the `Token` type (a 16-byte array) as a
`List Nat` of length 16.  Versions are Go `uint64` values, modelled as
`Nat` with arithmetic taken modulo `2 ^ 64` where the code increments.

The file first gives all definitions (translated from the Go source),
then the theorems about them.
-/

namespace Obmd

/-! Error values of the daemon (`daemon.go`, `internal/driver`). -/

inductive ObmdError where
  | nodeExists
  | noSuchNode
  | invalidToken
  | versionConflict
  | invalidBootdev
  | unknownType
  | internalErr
  deriving DecidableEq, Repr

/-! Token codec, from `src/token.go`.

A `Token` is a 16-byte value; its text form is produced by
`fmt.Sprintf("%0x", t)` (two lowercase hex characters per byte) and
parsed by `UnmarshalText`, which checks the length, checks every
character with `isHexDigit`, and then reads the 32 hex characters
back into 16 bytes. -/

def tokenLen : Nat := 16

def TokenWf (t : List Nat) : Prop := t.length = tokenLen ∧ ∀ b ∈ t, b < 256

instance (t : List Nat) : Decidable (TokenWf t) := by
  unfold TokenWf; infer_instance

/-- The Go zero value `Token\x7b\x7d`: sixteen zero bytes. -/
def zeroToken : List Nat := List.replicate tokenLen 0

/-- Character-level predicate of `isHexDigit` (token.go line 47):
digits `0`-`9` (48..57), lowercase `a`-`f` (97..102), uppercase `A`-`F` (65..70). -/
def isHexDigit (c : Nat) : Bool :=
  (48 ≤ c && c ≤ 57) || (97 ≤ c && c ≤ 102) || (65 ≤ c && c ≤ 70)

/-- The lowercase hex character for a nibble, as produced by the `%x` verb. -/
def hexDigitChar (d : Nat) : Nat :=
  if d < 10 then 48 + d else 97 + (d - 10)

/-- Encoding of one byte: two lowercase hex characters, high nibble first. -/
def encodeByte (b : Nat) : List Nat :=
  [hexDigitChar (b / 16), hexDigitChar (b % 16)]

/-- Model of `Token.MarshalText`: `fmt.Sprintf("%0x", t)` renders each byte as two
lowercase hex characters. -/
def marshalText (t : List Nat) : List Nat :=
  t.flatMap encodeByte

/-- Numeric value of a hex character, as read back by the `%32x` scan verb
(case-insensitive). Non-hex characters never reach this point in the code. -/
def hexVal (c : Nat) : Nat :=
  if 48 ≤ c ∧ c ≤ 57 then c - 48
  else if 97 ≤ c ∧ c ≤ 102 then c - 97 + 10
  else if 65 ≤ c ∧ c ≤ 70 then c - 65 + 10
  else 0

/-- Read pairs of hex characters back into bytes, high nibble first. -/
def parseHexPairs : List Nat → List Nat
  | c1 :: c2 :: rest => (hexVal c1 * 16 + hexVal c2) :: parseHexPairs rest
  | _ => []

/-- Model of `Token.UnmarshalText` (token.go lines 28-45): reject any text whose
length is not 32; reject any text containing a character that is not a
hex digit; otherwise scan the 32 hex characters into 16 bytes. -/
def unmarshalText (s : List Nat) : Except ObmdError (List Nat) :=
  if s.length ≠ 2 * tokenLen then .error .invalidToken
  else if s.all isHexDigit then .ok (parseHexPairs s)
  else .error .invalidToken

/-- The Go mapping of `A`-`Z` to lowercase, used to state case-insensitivity. -/
def toLowerByte (c : Nat) : Nat :=
  if 65 ≤ c ∧ c ≤ 90 then c + 32 else c

/-! Nodes, from `node.go` (src/unnamed/part_002) and its later revision
used by `state.go` (src/unnamed/part_014) and `daemon.go`
(src/unnamed/part_007).

A node stores a version counter, the raw driver connection info, and the
current bearer token.  The process-wide sentinel `noToken`
(src/token.go lines 17-22) is a random token generated once at startup;
it is a parameter of every operation that touches it.  The live OBM
coordinator attached to the node is summarised by `consoleActive`,
which records whether a console subprocess is currently running;
`DropConsole` on the coordinator clears it.  Driver construction
(`Registry.GetOBM`) is modelled as always succeeding. -/

structure Node where
  version : Nat
  connInfo : List Nat
  currentToken : List Nat
  consoleActive : Bool
  deriving DecidableEq, Repr

/-- Model of `subtle.ConstantTimeCompare` returns 1 exactly when the two byte
strings are equal (same length and contents). -/
def constantTimeCompare (a b : List Nat) : Bool := a == b

/-- Model of `Node.ValidToken`: constant-time comparison of the presented token
against the current token of the node. -/
def Node.ValidToken (n : Node) (t : List Nat) : Bool :=
  constantTimeCompare n.currentToken t

/-- Model of `Node.ClearToken`: drop the console via the OBM and set the current
token back to the sentinel. -/
def Node.ClearToken (n : Node) (noToken : List Nat) : Node :=
  { n with consoleActive := false, currentToken := noToken }

/-- Model of `NewNode`: a freshly constructed node carries the given version and
info, its `CurrentToken` is the sentinel, and no console is active yet. -/
def mkNode (noToken : List Nat) (info : List Nat) (version : Nat) : Node :=
  { version := version, connInfo := info, currentToken := noToken,
    consoleActive := false }

/-- Model of `Node.NewToken`: generate a random token (the `rand` argument models
the bytes read from the RNG), clear the old token — which drops the
console — and install the new token as current. -/
def Node.NewToken (n : Node) (rand noToken : List Nat) : Node × List Nat :=
  let n1 := n.ClearToken noToken
  ({ n1 with currentToken := rand }, rand)

/-! The per-node coordinator, from
`src/internal/driver/coordinator/coordinator.go`.

`Server.Serve` is a single-writer event loop.  Its local state is the
current subprocess handle `proc` and the console connection `conn`
delivered by the last successful dial.  The loop reacts to: context
cancellation, a drop signal from `Close` of the current connection, an
external `DropConsole` request, a `RunInServer` closure, and a
`DialConsole` request (which first stops any running process, then
dials; on success a fresh `consoleConn` is handed back).

Subprocess handles and connections are named by fresh natural numbers
drawn from `nextId`; the observable side effects of a step are recorded
as a list of `Action`s (shutdowns, spawns, deliveries of streams). -/

structure CoordState where
  stopped : Bool
  proc : Option Nat
  connId : Nat
  nextId : Nat
  deriving DecidableEq, Repr

inductive Event where
  | cancel
  | connDrop
  | dropConsole
  | runFn
  | dialOk
  | dialErr
  deriving DecidableEq, Repr

inductive Action where
  | shutdown (p : Nat)
  | spawn (p : Nat)
  | deliverConn (c : Nat)
  | replyErr
  | ranFn
  deriving DecidableEq, Repr

/-- The `stopProcess` closure in `Serve`: if a subprocess is running,
shut it down (errors are only logged) and clear `proc`. -/
def stopProcess (s : CoordState) : CoordState × List Action :=
  match s.proc with
  | none => (s, [])
  | some p => ({ s with proc := none }, [.shutdown p])

/-- One iteration of the `select` in `Serve`.  After the context is
cancelled the loop has returned and accepts no further events. -/
def step (s : CoordState) (e : Event) : CoordState × List Action :=
  if s.stopped then (s, [])
  else
    match e with
    | .cancel =>
        let r := stopProcess s
        ({ r.1 with stopped := true }, r.2)
    | .connDrop => stopProcess s
    | .dropConsole => stopProcess s
    | .runFn => (s, [.ranFn])
    | .dialErr =>
        let r := stopProcess s
        (r.1, r.2 ++ [.replyErr])
    | .dialOk =>
        let r := stopProcess s
        let p := r.1.nextId
        let c := r.1.nextId + 1
        ({ r.1 with proc := some p, connId := c, nextId := r.1.nextId + 2 },
         r.2 ++ [.spawn p, .deliverConn c])

/-- The state of `Serve` when it starts: a placeholder connection exists,
no subprocess is running. -/
def initCoord : CoordState :=
  { stopped := false, proc := none, connId := 0, nextId := 1 }

/-- Run a sequence of events from the initial state, accumulating the
trace of observable actions. -/
def runEvents (es : List Event) : CoordState × List Action :=
  es.foldl (fun acc e =>
    let r := step acc.1 e
    (r.1, acc.2 ++ r.2)) (initCoord, [])

/-- The multiset of subprocesses spawned but not yet shut down after a
trace of actions. -/
def activeProcs (as : List Action) : List Nat :=
  as.foldl (fun acc a =>
    match a with
    | .spawn p => acc ++ [p]
    | .shutdown p => acc.erase p
    | _ => acc) []

/-- A `consoleConn` as handed to the console consumer: its `dropped`
flag guards the one-slot buffered `drop` channel (`bufferedDrops`
counts the signals sitting in that buffer). -/
structure ConsoleConn where
  dropped : Bool
  bufferedDrops : Nat
  deriving DecidableEq, Repr

/-- Model of `consoleConn.Close` (coordinator.go lines 33-39): only the first call
sends the drop signal; every call returns nil. -/
def ConsoleConn.close (c : ConsoleConn) : ConsoleConn × Option ObmdError :=
  if c.dropped then (c, none)
  else ({ dropped := true, bufferedDrops := c.bufferedDrops + 1 }, none)

/-- Model of `Server.DropConsole`: send the drop event to the serve loop (which
runs `stopProcess`) and unconditionally return nil. -/
def serverDropConsole (s : CoordState) : (CoordState × List Action) × Option ObmdError :=
  (step s .dropConsole, none)

/-! The registry State, from `state.go` (src/unnamed/part_014), and the
Daemon, from `daemon.go` (src/unnamed/part_007).

The SQL table mirrors the in-memory map one-to-one and SQL statements
are modelled as always succeeding, so the store appears once, as an
association list from labels to nodes.  `mapGet`, `mapPut` and `mapDel`
model Go map lookup, assignment and `delete`. -/

def mapGet {α : Type} : List (String × α) → String → Option α
  | [], _ => none
  | (k, v) :: rest, l => if k = l then some v else mapGet rest l

def mapPut {α : Type} : List (String × α) → String → α → List (String × α)
  | [], l, n => [(l, n)]
  | (k, v) :: rest, l, n =>
      if k = l then (l, n) :: rest else (k, v) :: mapPut rest l n

def mapDel {α : Type} : List (String × α) → String → List (String × α)
  | [], _ => []
  | (k, v) :: rest, l => if k = l then mapDel rest l else (k, v) :: mapDel rest l

/-- Go `uint64` increment. -/
def bump64 (v : Nat) : Nat := (v + 1) % 2 ^ 64

abbrev Nodes := List (String × Node)

/-- Model of `State.GetNode` (part_014 lines 86-92): look the label up in the map;
absent labels yield `ErrNoSuchNode`. -/
def stateGetNode (s : Nodes) (l : String) : Except ObmdError Node :=
  match mapGet s l with
  | some n => .ok n
  | none => .error .noSuchNode

/-- Model of `State.NewNode` (part_014 lines 94-117): fail with `ErrNodeExists` if
the label is present; otherwise construct the node at the given version,
insert the row, start its coordinator. -/
def stateNewNode (noToken : List Nat) (s : Nodes) (l : String)
    (info : List Nat) (version : Nat) : Except ObmdError Nodes :=
  match mapGet s l with
  | some _ => .error .nodeExists
  | none => .ok (mapPut s l (mkNode noToken info version))

/-- Model of `State.DeleteNode` (part_014 lines 132-141): if present, stop the
coordinator, remove from the map and delete the row; absent labels are a
no-op.  Always succeeds in the model. -/
def stateDeleteNode (s : Nodes) (l : String) : Nodes :=
  mapDel s l

/-- Model of `State.BumpNodeVersion` (part_014 lines 119-130): increment the
in-memory version and persist it (the SQL update is modelled as
succeeding, so the rollback path does not arise). -/
def stateBumpNodeVersion (s : Nodes) (l : String) : Except ObmdError Nodes :=
  match mapGet s l with
  | none => .error .noSuchNode
  | some n => .ok (mapPut s l { n with version := bump64 n.version })

/-- Model of `Daemon.SetNode` (part_007 lines 34-57): if the node exists, capture
its version, delete it, and re-create it at version + 1 with the new
info; otherwise create it at version 0. -/
def daemonSetNode (noToken : List Nat) (s : Nodes) (l : String)
    (info : List Nat) : Nodes × Option ObmdError :=
  match mapGet s l with
  | some node =>
      let s1 := stateDeleteNode s l
      match stateNewNode noToken s1 l info (bump64 node.version) with
      | .ok s2 => (s2, none)
      | .error e => (s1, some e)
  | none =>
      match stateNewNode noToken s l info 0 with
      | .ok s2 => (s2, none)
      | .error e => (s, some e)

/-- Model of `Daemon.SetNodeVersion` (part_007 lines 70-86): conditional bump.
Unless the requested version is exactly current + 1, report the current
version with `ErrVersionConflict`.  On success bump the version and drop
the console via the coordinator; the bumped version is returned. -/
def daemonSetNodeVersion (s : Nodes) (l : String) (version : Nat) :
    Nodes × Nat × Option ObmdError :=
  match mapGet s l with
  | none => (s, 0, some .noSuchNode)
  | some node =>
      if version ≠ bump64 node.version then
        (s, node.version, some .versionConflict)
      else
        let node1 := { node with version := bump64 node.version }
        let node2 := { node1 with consoleActive := false }
        (mapPut s l node2, node1.version, none)

/-- Model of `Daemon.GetNodeToken` (part_007 lines 88-103): unless the expected
version matches the current version of the node, report the current version
with `ErrVersionConflict` and touch nothing.  On a match mint the new
token via `Node.NewToken` and return it with the current version. -/
def daemonGetNodeToken (rand noToken : List Nat) (s : Nodes) (l : String)
    (version : Nat) : Nodes × List Nat × Nat × Option ObmdError :=
  match mapGet s l with
  | none => (s, zeroToken, 0, some .noSuchNode)
  | some node =>
      if version ≠ node.version then
        (s, zeroToken, node.version, some .versionConflict)
      else
        let r := node.NewToken rand noToken
        (mapPut s l r.1, r.2, node.version, none)

/-! The fork revision of the Daemon (`src/daemon.go`) wired to the mock
driver (`src/internal/driver/mock/mock.go`), and the HTTP error mapping
(`src/http.go`).

The mock driver records the most recent control action per OBM address
in the test-observable `LastPowerActions` map; the parsed mock info of a node
is summarised by its `addr`. -/

inductive PowerAction where
  | off
  | forceReboot
  | softReboot
  | bootDevA
  | bootDevB
  deriving DecidableEq, Repr

structure MockNode where
  currentToken : List Nat
  addr : String
  deriving DecidableEq, Repr

structure MockSys where
  nodes : List (String × MockNode)
  lastPowerActions : List (String × PowerAction)
  deriving DecidableEq, Repr

/-- Model of `Daemon.getNodeWithToken` (daemon.go lines 77-86): look the node up
and check the presented token with the constant-time check of the node. -/
def getNodeWithToken (sys : MockSys) (l : String) (tok : List Nat) :
    Except ObmdError MockNode :=
  match mapGet sys.nodes l with
  | none => .error .noSuchNode
  | some node =>
      if constantTimeCompare node.currentToken tok then .ok node
      else .error .invalidToken

/-- Model of `server.setPowerAction` (mock.go lines 97-101). -/
def setPowerAction (sys : MockSys) (addr : String) (a : PowerAction) : MockSys :=
  { sys with lastPowerActions := mapPut sys.lastPowerActions addr a }

/-- Model of `Daemon.PowerOffNode` (daemon.go lines 98-106) over the mock OBM. -/
def powerOffNode (sys : MockSys) (l : String) (tok : List Nat) :
    MockSys × Option ObmdError :=
  match getNodeWithToken sys l tok with
  | .error e => (sys, some e)
  | .ok node => (setPowerAction sys node.addr .off, none)

/-- Model of `Daemon.PowerCycleNode` (daemon.go lines 108-116) over the mock OBM. -/
def powerCycleNode (sys : MockSys) (l : String) (force : Bool)
    (tok : List Nat) : MockSys × Option ObmdError :=
  match getNodeWithToken sys l tok with
  | .error e => (sys, some e)
  | .ok node =>
      (setPowerAction sys node.addr (if force then .forceReboot else .softReboot),
       none)

/-- Model of `Daemon.SetNodeBootDev` (daemon.go lines 118-126) over the mock OBM,
whose valid boot devices are `A` and `B` (mock.go lines 121-131). -/
def setNodeBootDev (sys : MockSys) (l : String) (dev : String)
    (tok : List Nat) : MockSys × Option ObmdError :=
  match getNodeWithToken sys l tok with
  | .error e => (sys, some e)
  | .ok node =>
      if dev = "A" then (setPowerAction sys node.addr .bootDevA, none)
      else if dev = "B" then (setPowerAction sys node.addr .bootDevB, none)
      else (sys, some .invalidBootdev)

/-- Model of `Daemon.GetNodePowerStatus` (daemon.go lines 128-136) over the mock
OBM, which always reports the string `Mock Status`. -/
def getNodePowerStatus (sys : MockSys) (l : String) (tok : List Nat) :
    MockSys × String × Option ObmdError :=
  match getNodeWithToken sys l tok with
  | .error e => (sys, "", some e)
  | .ok _ => (sys, "Mock Status", none)

/-- Model of `relayError` (http.go lines 52-66): map daemon errors to HTTP status
codes. -/
def relayError : Option ObmdError → Nat
  | none => 200
  | some .noSuchNode => 404
  | some .invalidToken => 401
  | some .invalidBootdev => 400
  | some _ => 500

/-! The power-cycle logic of the IPMI driver, from `ipmi.go`
(src/unnamed/part_009 lines 138-155; the same logic appears in the older
`IpmitoolDialer.PowerCycle`, src/unnamed/part_004 lines 58-73).

Invoking `ipmitool` with a given argument list is modelled by an oracle
`run : List String → Option Nat` giving the outcome of `cmd.Run()`
(`none` is success, `some code` an error).  The returned trace lists the
invocations issued, in order. -/

/-- The `chassis power` subcommand chosen by `force`. -/
def powerCycleOp (force : Bool) : String := if force then "reset" else "cycle"

/-- Model of `server.PowerCycle`: run `chassis power reset` (force) or
`chassis power cycle` (soft); if that fails, run `chassis power on`
once and return its outcome. -/
def ipmiPowerCycle (run : List String → Option Nat) (force : Bool) :
    List (List String) × Option Nat :=
  let first := ["chassis", "power", powerCycleOp force]
  match run first with
  | none => ([first], none)
  | some _ =>
      let second := ["chassis", "power", "on"]
      ([first, second], run second)

/-! Theorems. -/

lemma marshalText_length (t : List Nat) : (marshalText t).length = 2 * t.length := by
  induction t with
  | nil => rfl
  | cons b rest ih =>
    simp [marshalText, encodeByte] at ih ⊢
    omega

lemma isHexDigit_hexDigitChar (d : Nat) (h : d < 16) :
    isHexDigit (hexDigitChar d) = true := by
  interval_cases d <;> decide

lemma hexVal_hexDigitChar (d : Nat) (h : d < 16) :
    hexVal (hexDigitChar d) = d := by
  interval_cases d <;> decide

lemma marshalText_cons (b : Nat) (t : List Nat) :
    marshalText (b :: t) = hexDigitChar (b / 16) :: hexDigitChar (b % 16) :: marshalText t := by
  simp [marshalText, encodeByte]

lemma marshalText_all_hex (t : List Nat) (h : ∀ b ∈ t, b < 256) :
    (marshalText t).all isHexDigit = true := by
  induction t with
  | nil => rfl
  | cons b rest ih =>
    have hb : b < 256 := h b (List.mem_cons_self _ _)
    have h1 : b / 16 < 16 := by omega
    have h2 : b % 16 < 16 := Nat.mod_lt _ (by omega)
    rw [marshalText_cons]
    simp only [List.all_cons, Bool.and_eq_true]
    exact ⟨isHexDigit_hexDigitChar _ h1,
      isHexDigit_hexDigitChar _ h2,
      ih (fun x hx => h x (List.mem_cons_of_mem _ hx))⟩

lemma parseHexPairs_marshalText (t : List Nat) (h : ∀ b ∈ t, b < 256) :
    parseHexPairs (marshalText t) = t := by
  induction t with
  | nil => rfl
  | cons b rest ih =>
    have hb : b < 256 := h b (List.mem_cons_self _ _)
    have h1 : b / 16 < 16 := by omega
    have h2 : b % 16 < 16 := Nat.mod_lt _ (by omega)
    rw [marshalText_cons, parseHexPairs,
      hexVal_hexDigitChar _ h1, hexVal_hexDigitChar _ h2,
      ih (fun x hx => h x (List.mem_cons_of_mem _ hx))]
    congr 1
    omega

lemma isHexDigit_cases (c : Nat) (h : isHexDigit c = true) :
    (48 ≤ c ∧ c ≤ 57) ∨ (97 ≤ c ∧ c ≤ 102) ∨ (65 ≤ c ∧ c ≤ 70) := by
  simp [isHexDigit] at h
  omega

lemma isHexDigit_toLowerByte (c : Nat) (h : isHexDigit c = true) :
    isHexDigit (toLowerByte c) = true := by
  have := isHexDigit_cases c h
  simp [isHexDigit, toLowerByte]
  split <;> omega

lemma hexVal_toLowerByte (c : Nat) (h : isHexDigit c = true) :
    hexVal (toLowerByte c) = hexVal c := by
  have := isHexDigit_cases c h
  unfold hexVal toLowerByte
  split_ifs <;> omega

lemma parseHexPairs_map_toLower :
    ∀ s : List Nat, (∀ c ∈ s, isHexDigit c = true) →
      parseHexPairs (s.map toLowerByte) = parseHexPairs s
  | [], _ => rfl
  | [c], _ => rfl
  | c1 :: c2 :: rest, h => by
    have h1 : isHexDigit c1 = true := h c1 (by simp)
    have h2 : isHexDigit c2 = true := h c2 (by simp)
    simp only [List.map_cons, parseHexPairs]
    rw [hexVal_toLowerByte c1 h1, hexVal_toLowerByte c2 h2,
      parseHexPairs_map_toLower rest (fun c hc => h c (by simp [hc]))]

/-- C6: the token codec round-trips and is strict.  For every 16-byte token
`t`, decoding its text form gives `t` back; for every text `s` that is not
exactly 32 hex characters (wrong length, or some character outside
`[0-9a-fA-F]`), decoding fails with `InvalidToken`. -/
theorem token_codec_roundtrip_strict (t s : List Nat)
    (ht : TokenWf t)
    (hs : ¬ (s.length = 32 ∧ ∀ c ∈ s, isHexDigit c = true)) :
    unmarshalText (marshalText t) = .ok t ∧
    unmarshalText s = .error .invalidToken := by
  obtain ⟨hlen, hbytes⟩ := ht
  constructor
  · have hL : (marshalText t).length = 2 * tokenLen := by
      rw [marshalText_length, hlen]
    rw [unmarshalText, if_neg (by omega), if_pos (marshalText_all_hex t hbytes),
      parseHexPairs_marshalText t hbytes]
  · rw [unmarshalText]
    by_cases hl : s.length = 2 * tokenLen
    · rw [if_neg (by omega)]
      have : ¬ s.all isHexDigit = true := by
        intro hall
        exact hs ⟨by simpa [tokenLen] using hl, by simpa [List.all_eq_true] using hall⟩
      simp [this]
    · rw [if_pos hl]

/-- Witness for C6 at a concrete token and a concrete rejected text. -/
theorem token_codec_roundtrip_strict_witness :
    unmarshalText (marshalText (List.replicate 16 171)) = .ok (List.replicate 16 171) ∧
    unmarshalText [48, 49] = .error .invalidToken :=
  token_codec_roundtrip_strict (List.replicate 16 171) [48, 49]
    (by decide) (by decide)

/-- C10: token decoding is case-insensitive, not lowercase-only.  Every
32-character text over `[0-9a-fA-F]` decodes successfully, and its result
equals the decoding of its lowercase form. -/
theorem token_decode_case_insensitive (s : List Nat)
    (hlen : s.length = 32) (hhex : ∀ c ∈ s, isHexDigit c = true) :
    unmarshalText s = .ok (parseHexPairs s) ∧
      unmarshalText (s.map toLowerByte) = .ok (parseHexPairs s) := by
  refine ⟨?_, ?_⟩
  · rw [unmarshalText, if_neg (by simp [hlen, tokenLen]),
      if_pos (by simpa [List.all_eq_true] using hhex)]
  · have hlen2 : (s.map toLowerByte).length = 32 := by simp [hlen]
    have hhex2 : ∀ c ∈ s.map toLowerByte, isHexDigit c = true := by
      intro c hc
      obtain ⟨c0, hc0, rfl⟩ := List.mem_map.mp hc
      exact isHexDigit_toLowerByte c0 (hhex c0 hc0)
    rw [unmarshalText, if_neg (by simp [hlen2, tokenLen]),
      if_pos (by simpa [List.all_eq_true] using hhex2),
      parseHexPairs_map_toLower s hhex]

/-- Witness for C10 at a concrete mixed-case hex text. -/
theorem token_decode_case_insensitive_witness :
    unmarshalText
        [48, 49, 50, 51, 52, 53, 54, 55, 56, 57, 65, 66, 67, 68, 69, 70,
         97, 98, 99, 100, 101, 102, 48, 65, 98, 67, 100, 69, 102, 48, 49, 50] =
      .ok (parseHexPairs
        [48, 49, 50, 51, 52, 53, 54, 55, 56, 57, 65, 66, 67, 68, 69, 70,
         97, 98, 99, 100, 101, 102, 48, 65, 98, 67, 100, 69, 102, 48, 49, 50]) ∧
    unmarshalText
        ([48, 49, 50, 51, 52, 53, 54, 55, 56, 57, 65, 66, 67, 68, 69, 70,
          97, 98, 99, 100, 101, 102, 48, 65, 98, 67, 100, 69, 102, 48, 49, 50].map
            toLowerByte) =
      .ok (parseHexPairs
        [48, 49, 50, 51, 52, 53, 54, 55, 56, 57, 65, 66, 67, 68, 69, 70,
         97, 98, 99, 100, 101, 102, 48, 65, 98, 67, 100, 69, 102, 48, 49, 50]) :=
  token_decode_case_insensitive _ (by decide) (by decide)

/-- C9: after `ClearToken` (and likewise on a freshly created node, whose
token was never minted), `ValidToken t` holds exactly when `t` is the
process-wide sentinel `noToken`; in particular the sentinel itself is
accepted as a valid bearer token for such a node. -/
theorem sentinel_token_accepted (noToken : List Nat) (n : Node)
    (info : List Nat) (version : Nat) (t : List Nat) :
    ((n.ClearToken noToken).ValidToken t = true ↔ t = noToken) ∧
    ((mkNode noToken info version).ValidToken t = true ↔ t = noToken) ∧
    (n.ClearToken noToken).ValidToken noToken = true := by
  refine ⟨?_, ?_, ?_⟩
  · show (noToken == t) = true ↔ t = noToken
    rw [beq_iff_eq]
    exact eq_comm
  · show (noToken == t) = true ↔ t = noToken
    rw [beq_iff_eq]
    exact eq_comm
  · show (noToken == noToken) = true
    rw [beq_iff_eq]

lemma activeProcs_append (tr new : List Action) :
    activeProcs (tr ++ new) = new.foldl (fun acc a =>
      match a with
      | .spawn p => acc ++ [p]
      | .shutdown p => acc.erase p
      | _ => acc) (activeProcs tr) := by
  simp [activeProcs, List.foldl_append]

lemma step_inv (s : CoordState) (e : Event) (tr : List Action)
    (h1 : activeProcs tr = s.proc.toList)
    (h2 : s.connId < s.nextId)
    (h3 : ∀ p, s.proc = some p → p < s.nextId) :
    activeProcs (tr ++ (step s e).2) = (step s e).1.proc.toList ∧
    (step s e).1.connId < (step s e).1.nextId ∧
    (∀ p, (step s e).1.proc = some p → p < (step s e).1.nextId) := by
  rw [activeProcs_append, h1]
  cases hst : s.stopped with
  | true =>
    simp only [step, hst, if_true]
    exact ⟨rfl, h2, h3⟩
  | false =>
    cases e <;> cases hp : s.proc <;>
      simp_all [step, stopProcess, List.erase_cons_head]

lemma foldl_run_inv (es : List Event) :
    ∀ (s : CoordState) (tr : List Action),
      activeProcs tr = s.proc.toList →
      s.connId < s.nextId →
      (∀ p, s.proc = some p → p < s.nextId) →
      activeProcs (es.foldl (fun acc e =>
          let r := step acc.1 e
          (r.1, acc.2 ++ r.2)) (s, tr)).2 =
        (es.foldl (fun acc e =>
          let r := step acc.1 e
          (r.1, acc.2 ++ r.2)) (s, tr)).1.proc.toList ∧
      (es.foldl (fun acc e =>
          let r := step acc.1 e
          (r.1, acc.2 ++ r.2)) (s, tr)).1.connId <
        (es.foldl (fun acc e =>
          let r := step acc.1 e
          (r.1, acc.2 ++ r.2)) (s, tr)).1.nextId ∧
      (∀ p, (es.foldl (fun acc e =>
          let r := step acc.1 e
          (r.1, acc.2 ++ r.2)) (s, tr)).1.proc = some p →
        p < (es.foldl (fun acc e =>
          let r := step acc.1 e
          (r.1, acc.2 ++ r.2)) (s, tr)).1.nextId) := by
  induction es with
  | nil =>
    intro s tr h1 h2 h3
    exact ⟨h1, h2, h3⟩
  | cons e rest ih =>
    intro s tr h1 h2 h3
    have h := step_inv s e tr h1 h2 h3
    simpa using ih (step s e).1 (tr ++ (step s e).2) h.1 h.2.1 h.2.2

lemma runEvents_inv (es : List Event) :
    activeProcs (runEvents es).2 = (runEvents es).1.proc.toList ∧
    (runEvents es).1.connId < (runEvents es).1.nextId ∧
    (∀ p, (runEvents es).1.proc = some p → p < (runEvents es).1.nextId) := by
  have h := foldl_run_inv es initCoord [] (by rfl) (by decide) (by intro p hp; cases hp)
  exact h

/-- C4: in every reachable coordinator state at most one console
subprocess is active (the spawned-but-not-shut-down processes of the
trace are exactly the current `proc`, hence at most one); a dial request
with an active subprocess first shuts it down, then spawns the new one
and only then delivers the new stream; and two back-to-back successful
dials deliver two distinct streams, where the action sequence of the second dial is
shutting the first subprocess down before its stream is delivered. -/
theorem coordinator_single_console (es : List Event) (p : Nat)
    (hstop : (runEvents es).1.stopped = false)
    (hp : (runEvents es).1.proc = some p) :
    activeProcs (runEvents es).2 = [p] ∧
    (∀ es2 : List Event, (activeProcs (runEvents es2).2).length ≤ 1) ∧
    (step (runEvents es).1 .dialOk).2 =
      [.shutdown p, .spawn (runEvents es).1.nextId,
       .deliverConn ((runEvents es).1.nextId + 1)] ∧
    (step (runEvents es).1 .dialOk).1.connId ≠ (runEvents es).1.connId ∧
    (step (step (runEvents es).1 .dialOk).1 .dialOk).1.connId ≠
      (step (runEvents es).1 .dialOk).1.connId ∧
    (step (step (runEvents es).1 .dialOk).1 .dialOk).2 =
      [.shutdown (runEvents es).1.nextId,
       .spawn (step (runEvents es).1 .dialOk).1.nextId,
       .deliverConn ((step (runEvents es).1 .dialOk).1.nextId + 1)] := by
  obtain ⟨ha, hc, hb⟩ := runEvents_inv es
  refine ⟨by rw [ha, hp]; rfl, ?_, ?_, ?_, ?_, ?_⟩
  · intro es2
    obtain ⟨ha2, -, -⟩ := runEvents_inv es2
    rw [ha2]
    cases (runEvents es2).1.proc <;> simp
  · simp [step, stopProcess, hstop, hp]
  · have := hc
    simp [step, stopProcess, hstop, hp]
    omega
  · simp [step, stopProcess, hstop, hp]
  · simp [step, stopProcess, hstop, hp]

/-- Witness for C4: one successful dial from the initial state leaves
subprocess 1 active, and the conclusions of the theorem hold there. -/
theorem coordinator_single_console_witness :
    activeProcs (runEvents [Event.dialOk]).2 = [1] ∧
    (∀ es2 : List Event, (activeProcs (runEvents es2).2).length ≤ 1) ∧
    (step (runEvents [Event.dialOk]).1 .dialOk).2 =
      [.shutdown 1, .spawn (runEvents [Event.dialOk]).1.nextId,
       .deliverConn ((runEvents [Event.dialOk]).1.nextId + 1)] ∧
    (step (runEvents [Event.dialOk]).1 .dialOk).1.connId ≠
      (runEvents [Event.dialOk]).1.connId ∧
    (step (step (runEvents [Event.dialOk]).1 .dialOk).1 .dialOk).1.connId ≠
      (step (runEvents [Event.dialOk]).1 .dialOk).1.connId ∧
    (step (step (runEvents [Event.dialOk]).1 .dialOk).1 .dialOk).2 =
      [.shutdown (runEvents [Event.dialOk]).1.nextId,
       .spawn (step (runEvents [Event.dialOk]).1 .dialOk).1.nextId,
       .deliverConn ((step (runEvents [Event.dialOk]).1 .dialOk).1.nextId + 1)] :=
  coordinator_single_console [Event.dialOk] 1 (by decide) (by decide)

/-- C5: teardown is idempotent.  Closing a console stream a second time
changes nothing — the drop signal is sent only once — and every `Close`
returns nil; a `DropConsole` request while no console subprocess is
active returns nil and leaves the coordinator state unchanged, emitting
no shutdown. -/
theorem teardown_idempotent (c : ConsoleConn) (s : CoordState)
    (hrun : s.stopped = false) (hidle : s.proc = none) :
    c.close.1.close = (c.close.1, none) ∧
    c.close.2 = none ∧
    serverDropConsole s = ((s, []), none) := by
  refine ⟨?_, ?_, ?_⟩
  · by_cases hd : c.dropped <;> simp [ConsoleConn.close, hd]
  · by_cases hd : c.dropped <;> simp [ConsoleConn.close, hd]
  · simp [serverDropConsole, step, stopProcess, hrun, hidle]

/-- Witness for C5 at a fresh console connection and the initial
coordinator state. -/
theorem teardown_idempotent_witness :
    ConsoleConn.close (ConsoleConn.close ⟨false, 0⟩).1 =
      ((ConsoleConn.close ⟨false, 0⟩).1, none) ∧
    (ConsoleConn.close ⟨false, 0⟩).2 = none ∧
    serverDropConsole initCoord = ((initCoord, []), none) :=
  teardown_idempotent ⟨false, 0⟩ initCoord (by decide) (by decide)

lemma mapGet_mapPut_self {α : Type} (m : List (String × α)) (l : String) (n : α) :
    mapGet (mapPut m l n) l = some n := by
  induction m with
  | nil => simp [mapPut, mapGet]
  | cons kv rest ih =>
    obtain ⟨k, v⟩ := kv
    by_cases hk : k = l <;> simp [mapPut, mapGet, hk, ih]

lemma mapGet_mapDel_self {α : Type} (m : List (String × α)) (l : String) :
    mapGet (mapDel m l) l = none := by
  induction m with
  | nil => simp [mapDel, mapGet]
  | cons kv rest ih =>
    obtain ⟨k, v⟩ := kv
    by_cases hk : k = l <;> simp [mapDel, mapGet, hk, ih]

/-- C1: `set_node` creates the node at version 0 when the label is absent;
when a node with that label exists at version `V`, it deletes it and
re-creates it at version `V + 1` with the new info (a fresh node, so with
the sentinel token and no console), succeeding rather than failing with
`NodeExists`. -/
theorem setNode_reregister (noToken : List Nat) (s : Nodes) (l : String)
    (info : List Nat)
    (hov : ∀ node, mapGet s l = some node → node.version + 1 < 2 ^ 64) :
    (daemonSetNode noToken s l info).2 = none ∧
    mapGet (daemonSetNode noToken s l info).1 l =
      some (mkNode noToken info
        (match mapGet s l with
         | none => 0
         | some node => node.version + 1)) := by
  cases hget : mapGet s l with
  | none =>
    simp only [daemonSetNode, hget, stateNewNode]
    exact ⟨trivial, mapGet_mapPut_self s l _⟩
  | some node =>
    have hbump : bump64 node.version = node.version + 1 :=
      Nat.mod_eq_of_lt (hov node hget)
    simp only [daemonSetNode, hget, stateNewNode, stateDeleteNode,
      mapGet_mapDel_self, hbump]
    exact ⟨trivial, mapGet_mapPut_self _ l _⟩

/-- Witness for C1: re-registering the one existing node `n1` (at
version 5) succeeds and yields a fresh node at version 6 with the new
info. -/
theorem setNode_reregister_witness :
    (daemonSetNode [7] [("n1", mkNode [7] [1] 5)] "n1" [2]).2 = none ∧
    mapGet (daemonSetNode [7] [("n1", mkNode [7] [1] 5)] "n1" [2]).1 "n1" =
      some (mkNode [7] [2]
        (match mapGet [("n1", mkNode [7] [1] 5)] "n1" with
         | none => 0
         | some node => node.version + 1)) :=
  setNode_reregister [7] [("n1", mkNode [7] [1] 5)] "n1" [2]
    (by decide)

/-- C2: `mint_token` with a wrong expected version fails with
`VersionConflict`, reporting the current version and leaving the state —
in particular the current token and the console of the node — untouched; with the
matching expected version it installs the freshly generated random token
(clearing the old one and dropping the console) and returns it. -/
theorem getNodeToken_version_guard (rand noToken : List Nat) (s : Nodes)
    (l : String) (node : Node) (expected : Nat)
    (hnode : mapGet s l = some node) :
    (expected ≠ node.version →
      daemonGetNodeToken rand noToken s l expected =
        (s, zeroToken, node.version, some .versionConflict)) ∧
    (expected = node.version →
      daemonGetNodeToken rand noToken s l expected =
        (mapPut s l { node with currentToken := rand, consoleActive := false },
         rand, node.version, none) ∧
      mapGet (daemonGetNodeToken rand noToken s l expected).1 l =
        some { node with currentToken := rand, consoleActive := false }) := by
  constructor
  · intro hne
    simp [daemonGetNodeToken, hnode, hne]
  · intro heq
    have h1 : daemonGetNodeToken rand noToken s l expected =
        (mapPut s l { node with currentToken := rand, consoleActive := false },
         rand, node.version, none) := by
      simp [daemonGetNodeToken, hnode, heq, Node.NewToken, Node.ClearToken]
    exact ⟨h1, by rw [h1]; exact mapGet_mapPut_self s l _⟩

/-- Witness for C2 at a one-node state with current version 5: expected
version 3 conflicts and changes nothing; expected version 5 mints the
token. -/
theorem getNodeToken_version_guard_witness :
    daemonGetNodeToken [9] [7] [("n1", mkNode [7] [1] 5)] "n1" 3 =
      ([("n1", mkNode [7] [1] 5)], zeroToken, 5, some .versionConflict) ∧
    daemonGetNodeToken [9] [7] [("n1", mkNode [7] [1] 5)] "n1" 5 =
      (mapPut [("n1", mkNode [7] [1] 5)] "n1"
        { mkNode [7] [1] 5 with currentToken := [9], consoleActive := false },
       [9], 5, none) :=
  ⟨(getNodeToken_version_guard [9] [7] [("n1", mkNode [7] [1] 5)] "n1"
      (mkNode [7] [1] 5) 3 (by decide)).1 (by decide),
   ((getNodeToken_version_guard [9] [7] [("n1", mkNode [7] [1] 5)] "n1"
      (mkNode [7] [1] 5) 5 (by decide)).2 rfl).1⟩

/-- C3: `set_node_version(label, N)` succeeds — incrementing the
version to `N` and returning it — exactly when `N = V + 1`; otherwise it
returns `VersionConflict` together with the current version `V` and
leaves the state unchanged. -/
theorem setNodeVersion_conditional_bump (s : Nodes) (l : String)
    (node : Node) (n : Nat)
    (hnode : mapGet s l = some node) (hov : node.version + 1 < 2 ^ 64) :
    (n = node.version + 1 →
      daemonSetNodeVersion s l n =
        (mapPut s l { node with version := node.version + 1, consoleActive := false },
         node.version + 1, none) ∧
      mapGet (daemonSetNodeVersion s l n).1 l =
        some { node with version := node.version + 1, consoleActive := false }) ∧
    (n ≠ node.version + 1 →
      daemonSetNodeVersion s l n = (s, node.version, some .versionConflict)) := by
  have hbump : bump64 node.version = node.version + 1 := Nat.mod_eq_of_lt hov
  constructor
  · intro heq
    have h1 : daemonSetNodeVersion s l n =
        (mapPut s l { node with version := node.version + 1, consoleActive := false },
         node.version + 1, none) := by
      simp [daemonSetNodeVersion, hnode, hbump, heq]
    exact ⟨h1, by rw [h1]; exact mapGet_mapPut_self s l _⟩
  · intro hne
    simp [daemonSetNodeVersion, hnode, hbump, hne]

/-- Witness for C3 at a one-node state with current version 5: requesting
version 6 bumps; requesting version 9 conflicts and changes nothing. -/
theorem setNodeVersion_conditional_bump_witness :
    daemonSetNodeVersion [("n1", mkNode [7] [1] 5)] "n1" 6 =
      (mapPut [("n1", mkNode [7] [1] 5)] "n1"
        { mkNode [7] [1] 5 with version := 6, consoleActive := false },
       6, none) ∧
    daemonSetNodeVersion [("n1", mkNode [7] [1] 5)] "n1" 9 =
      ([("n1", mkNode [7] [1] 5)], 5, some .versionConflict) :=
  ⟨((setNodeVersion_conditional_bump [("n1", mkNode [7] [1] 5)] "n1"
      (mkNode [7] [1] 5) 6 (by decide) (by decide)).1 rfl).1,
   (setNodeVersion_conditional_bump [("n1", mkNode [7] [1] 5)] "n1"
      (mkNode [7] [1] 5) 9 (by decide) (by decide)).2 (by decide)⟩

/-- C7: every control operation presented with a token that does not
match the current token of the node fails with `InvalidToken` — mapped by the
HTTP layer to status 401 — performs no OBM action, and leaves the mock
last-power-action map of the mock driver (and the whole system state) unchanged. -/
theorem bad_token_rejected (sys : MockSys) (l : String) (node : MockNode)
    (tok : List Nat) (dev : String) (force : Bool)
    (hnode : mapGet sys.nodes l = some node)
    (htok : tok ≠ node.currentToken) :
    powerOffNode sys l tok = (sys, some .invalidToken) ∧
    powerCycleNode sys l force tok = (sys, some .invalidToken) ∧
    setNodeBootDev sys l dev tok = (sys, some .invalidToken) ∧
    getNodePowerStatus sys l tok = (sys, "", some .invalidToken) ∧
    (powerOffNode sys l tok).1.lastPowerActions = sys.lastPowerActions ∧
    relayError (some .invalidToken) = 401 := by
  have hg : getNodeWithToken sys l tok = .error .invalidToken := by
    have : (node.currentToken == tok) = false := by
      rw [beq_eq_false_iff_ne]
      exact fun h => htok h.symm
    simp [getNodeWithToken, hnode, constantTimeCompare, this]
  refine ⟨?_, ?_, ?_, ?_, ?_, rfl⟩ <;>
    simp [powerOffNode, powerCycleNode, setNodeBootDev, getNodePowerStatus, hg]

/-- Witness for C7: a node whose current token is `[1]`, presented with
the token `[2]`. -/
theorem bad_token_rejected_witness :
    powerOffNode ⟨[("n1", ⟨[1], "a1"⟩)], []⟩ "n1" [2] =
      (⟨[("n1", ⟨[1], "a1"⟩)], []⟩, some .invalidToken) ∧
    powerCycleNode ⟨[("n1", ⟨[1], "a1"⟩)], []⟩ "n1" true [2] =
      (⟨[("n1", ⟨[1], "a1"⟩)], []⟩, some .invalidToken) ∧
    setNodeBootDev ⟨[("n1", ⟨[1], "a1"⟩)], []⟩ "n1" "A" [2] =
      (⟨[("n1", ⟨[1], "a1"⟩)], []⟩, some .invalidToken) ∧
    getNodePowerStatus ⟨[("n1", ⟨[1], "a1"⟩)], []⟩ "n1" [2] =
      (⟨[("n1", ⟨[1], "a1"⟩)], []⟩, "", some .invalidToken) ∧
    (powerOffNode ⟨[("n1", ⟨[1], "a1"⟩)], []⟩ "n1" [2]).1.lastPowerActions =
      (⟨[("n1", ⟨[1], "a1"⟩)], []⟩ : MockSys).lastPowerActions ∧
    relayError (some .invalidToken) = 401 :=
  bad_token_rejected ⟨[("n1", ⟨[1], "a1"⟩)], []⟩ "n1" ⟨[1], "a1"⟩ [2] "A" true
    (by decide) (by decide)

/-- C8: `power_cycle(force=true)` invokes `chassis power reset` and
`power_cycle(force=false)` invokes `chassis power cycle`; when that
first invocation fails, exactly one retry with `chassis power on` is
issued and its outcome is returned. -/
theorem ipmi_power_cycle_fallback (run : List String → Option Nat)
    (force : Bool) (e : Nat) :
    (ipmiPowerCycle run true).1.head? = some ["chassis", "power", "reset"] ∧
    (ipmiPowerCycle run false).1.head? = some ["chassis", "power", "cycle"] ∧
    (run ["chassis", "power", powerCycleOp force] = none →
      ipmiPowerCycle run force =
        ([["chassis", "power", powerCycleOp force]], none)) ∧
    (run ["chassis", "power", powerCycleOp force] = some e →
      ipmiPowerCycle run force =
        ([["chassis", "power", powerCycleOp force], ["chassis", "power", "on"]],
         run ["chassis", "power", "on"])) := by
  refine ⟨?_, ?_, ?_, ?_⟩
  · cases h : run ["chassis", "power", "reset"] <;>
      simp [ipmiPowerCycle, powerCycleOp, h]
  · cases h : run ["chassis", "power", "cycle"] <;>
      simp [ipmiPowerCycle, powerCycleOp, h]
  · intro h
    simp [ipmiPowerCycle, h]
  · intro h
    simp [ipmiPowerCycle, h]

/-- Witness for C8: on an oracle where `chassis power reset` fails with
code 1 and everything else succeeds, a forced power cycle issues the
reset followed by exactly one `chassis power on`, whose success is
returned. -/
theorem ipmi_power_cycle_fallback_witness :
    ipmiPowerCycle
        (fun args => if args = ["chassis", "power", "reset"] then some 1 else none)
        true =
      ([["chassis", "power", "reset"], ["chassis", "power", "on"]], none) := by
  have h := (ipmi_power_cycle_fallback
      (fun args => if args = ["chassis", "power", "reset"] then some 1 else none)
      true 1).2.2.2 (by simp [powerCycleOp])
  rw [h]
  simp [powerCycleOp]

end Obmd
